import Mathlib

set_option maxRecDepth 8192

/-!
Shallow embedding of `src/tomte.py`: a per-file image fingerprinting tool.

The program decodes an image with an external codec (PIL), re-encodes only
the pixel payload into an in-memory buffer, hashes that buffer with SHA-1 in
fixed-size chunks, extracts a creation date from EXIF tag 306 (catching only
`KeyError`), and runs one unit of work per file over a `multiprocessing.Pool`
whose success callback prints the result line.

The external image codec is modelled as a pair of functions (`Codec`):
`decode` turns file bytes into an optional in-memory image (pixel payload,
format identifier, EXIF tag dictionary), and `encode` re-serializes a bare
pixel payload in a given format.  `im.save(img_buf, im.format)` writes from
the bare pixel buffer and does not reproduce the source's metadata block, so
`encode` receives only the pixels and the format.  SHA-1 itself
(`hashlib.sha1`) is implemented concretely below, following FIPS 180-1, so
digests evaluate on concrete inputs.
-/

/-- 32-bit truncation, as performed implicitly by SHA-1's word arithmetic. -/
def w32 (n : Nat) : Nat := n % 4294967296

/-- Left-rotation of a 32-bit word by `b` bits. -/
def rotl (b n : Nat) : Nat := w32 ((n <<< b) ||| (n >>> (32 - b)))

/-- SHA-1 round function `f_t` (FIPS 180-1). -/
def sha1F (t b c d : Nat) : Nat :=
  if t < 20 then (b &&& c) ||| ((4294967295 - w32 b) &&& d)
  else if t < 40 then b ^^^ c ^^^ d
  else if t < 60 then (b &&& c) ||| (b &&& d) ||| (c &&& d)
  else b ^^^ c ^^^ d

/-- SHA-1 round constant `K_t` (FIPS 180-1). -/
def sha1K (t : Nat) : Nat :=
  if t < 20 then 1518500249
  else if t < 40 then 1859775393
  else if t < 60 then 2400959708
  else 3395469782

/-- SHA-1 initial chaining state `H0 .. H4`. -/
def sha1Init : Nat × Nat × Nat × Nat × Nat :=
  (1732584193, 4023233417, 2562383102, 271733878, 3285377520)

/-- Big-endian grouping of bytes into 32-bit words. -/
def bytesToWords : List Nat → List Nat
  | b0 :: b1 :: b2 :: b3 :: rest =>
      (b0 * 16777216 + b1 * 65536 + b2 * 256 + b3) :: bytesToWords rest
  | _ => []

/-- Message-schedule expansion of a 16-word block to 80 words. -/
def sha1Expand (ws : List Nat) : List Nat :=
  (List.range 64).foldl
    (fun a _ =>
      let n := a.length
      a ++ [rotl 1 (a.getD (n - 3) 0 ^^^ a.getD (n - 8) 0 ^^^
                    a.getD (n - 14) 0 ^^^ a.getD (n - 16) 0)])
    ws

/-- One SHA-1 compression step over an expanded 80-word schedule. -/
def sha1Compress (h : Nat × Nat × Nat × Nat × Nat) (block : List Nat) :
    Nat × Nat × Nat × Nat × Nat :=
  let ws := sha1Expand (bytesToWords block)
  match h with
  | (h0, h1, h2, h3, h4) =>
    let fin := (List.range 80).foldl
      (fun (st : Nat × Nat × Nat × Nat × Nat) t =>
        match st with
        | (a, b, c, d, e) =>
          (w32 (rotl 5 a + sha1F t b c d + e + sha1K t + ws.getD t 0),
           a, rotl 30 b, c, d))
      (h0, h1, h2, h3, h4)
    match fin with
    | (a, b, c, d, e) =>
      (w32 (h0 + a), w32 (h1 + b), w32 (h2 + c), w32 (h3 + d), w32 (h4 + e))

/-- SHA-1 padding: `0x80`, zeros to 56 mod 64, then the 64-bit big-endian
bit length. -/
def sha1Pad (msg : List Nat) : List Nat :=
  let len := msg.length
  let bitLen := len * 8
  msg ++ [128] ++ List.replicate ((119 - len % 64) % 64) 0 ++
    [bitLen >>> 56 % 256, bitLen >>> 48 % 256, bitLen >>> 40 % 256,
     bitLen >>> 32 % 256, bitLen >>> 24 % 256, bitLen >>> 16 % 256,
     bitLen >>> 8 % 256, bitLen % 256]

/-- The chunking loop with an explicit fuel bound on the number of reads;
each successful read consumes at least one byte, so `data.length` fuel is
always enough. -/
def readChunksAux (fuel block_size : Nat) (data : List Nat) :
    List (List Nat) :=
  match fuel with
  | 0 => []
  | fuel + 1 =>
      if data = [] ∨ block_size = 0 then []
      else data.take block_size ::
        readChunksAux fuel block_size (data.drop block_size)

/-- `io.BytesIO.read(block_size)` loop: successive chunks of at most
`block_size` bytes.  `read(0)` returns the empty bytes object, so a zero
`block_size` produces no chunks at all. -/
def readChunks (block_size : Nat) (data : List Nat) : List (List Nat) :=
  readChunksAux data.length block_size data

/-- The bytes a sequence of `hasher.update(chunk)` calls feeds the hasher:
the concatenation of the chunks. -/
def joinChunks (chunks : List (List Nat)) : List Nat :=
  chunks.foldl (fun acc c => acc ++ c) []

/-- Big-endian bytes of a 32-bit word. -/
def wordToBytes (w : Nat) : List Nat :=
  [w / 16777216 % 256, w / 65536 % 256, w / 256 % 256, w % 256]

/-- The 20-byte SHA-1 digest of a byte string. -/
def sha1Digest (msg : List Nat) : List Nat :=
  let hs := (readChunks 64 (sha1Pad msg)).foldl sha1Compress sha1Init
  wordToBytes hs.1 ++ wordToBytes hs.2.1 ++ wordToBytes hs.2.2.1 ++
  wordToBytes hs.2.2.2.1 ++ wordToBytes hs.2.2.2.2

/-- The sixteen lowercase hexadecimal digit characters. -/
def hexDigits : List Char := "0123456789abcdef".data

/-- The hexadecimal digit character for a nibble. -/
def hexChar (n : Nat) : Char := hexDigits.getD n '0'

/-- Two lowercase hex characters per byte, as `hexdigest()` renders them. -/
def bytesToHex : List Nat → List Char
  | [] => []
  | b :: rest => hexChar (b / 16) :: hexChar (b % 16) :: bytesToHex rest

/-- `hashlib.sha1(...).hexdigest()`: the digest as a lowercase hex string. -/
def sha1Hex (msg : List Nat) : String := String.mk (bytesToHex (sha1Digest msg))

/-- The in-memory image PIL's decoder produces: the decoded pixel payload,
the format identifier (`im.format`), and the EXIF tag dictionary
(`im.getexif()`), modelled as an association list from tag codes to string
values. -/
structure Image where
  pixels : List Nat
  format : String
  exif : List (Nat × String)
deriving DecidableEq

/-- A file as the program sees it: a display name (`path.name`), raw
content bytes, and a filesystem timestamp.  The timestamp is never read by
the code; it is carried so independence from it is expressible. -/
structure FsFile where
  name : String
  bytes : List Nat
  mtime : Nat
deriving DecidableEq

/-- The external image codec (PIL), at the boundary the core uses:
`decode` is `PIL.Image.open` (+ full decode), `none` when the bytes are not
a valid image; `encode` is `im.save(buffer, format)` applied to a bare
pixel buffer, which re-serializes only the pixel payload — metadata is not
an input, so it cannot be reproduced. -/
structure Codec where
  decode : List Nat → Option Image
  encode : List Nat → String → List Nat

/-- The Python exceptions the program can raise per unit of work:
`PIL.UnidentifiedImageError` (the spec's `DecodeError`) from `open`, and
`ValueError` from `datetime.strptime` on an unparsable tag value. -/
inductive PyError where
  | DecodeError : PyError
  | ValueError : PyError
deriving DecidableEq

/-- A datetime value (`datetime.datetime` restricted to whole seconds,
which is all this program constructs). -/
structure DateTime where
  year : Nat
  month : Nat
  day : Nat
  hour : Nat
  minute : Nat
  second : Nat
deriving DecidableEq

/-- `ERROR_DATE = datetime.datetime(1900, 1, 1)`. -/
def ERROR_DATE : DateTime := ⟨1900, 1, 1, 0, 0, 0⟩

instance {ε α : Type} [DecidableEq ε] [DecidableEq α] :
    DecidableEq (Except ε α) := fun a b =>
  match a, b with
  | .ok x, .ok y =>
      if h : x = y then isTrue (by rw [h])
      else isFalse (fun he => h (Except.ok.inj he))
  | .error x, .error y =>
      if h : x = y then isTrue (by rw [h])
      else isFalse (fun he => h (Except.error.inj he))
  | .ok _, .error _ => isFalse (fun he => Except.noConfusion he)
  | .error _, .ok _ => isFalse (fun he => Except.noConfusion he)

/-- `_calc_checksum(image_path, block_size=8192)`: decode the image, save
the image-data portion to an in-memory buffer via `im.save(img_buf,
im.format)`, then read the buffer `block_size` bytes at a time, feeding
each chunk to a SHA-1 hasher, and return the hex digest.  A failed decode
raises (`Except.error`). -/
def _calc_checksum (c : Codec) (file : FsFile) (block_size : Nat) :
    Except PyError String :=
  match c.decode file.bytes with
  | none => .error .DecodeError
  | some im =>
      let img_buf := c.encode im.pixels im.format
      .ok (sha1Hex (joinChunks (readChunks block_size img_buf)))

/-- Digits-only parse of a numeral, `none` on the empty string or any
non-digit character. -/
def parseDigits (cs : List Char) : Option Nat :=
  if cs = [] ∨ ¬ cs.all Char.isDigit then none
  else some (cs.foldl (fun n ch => n * 10 + (ch.toNat - 48)) 0)

/-- Split a character list on a separator character (the groups between
separators, like `str.split` with all groups kept). -/
def splitOnChar (sep : Char) : List Char → List (List Char)
  | [] => [[]]
  | c :: rest =>
      let r := splitOnChar sep rest
      if c = sep then [] :: r
      else
        match r with
        | [] => [[c]]
        | g :: gs => (c :: g) :: gs

/-- `datetime.datetime.strptime(s, '%Y:%m:%d %H:%M:%S')`, modelled from
CPython's behavior on this fixed pattern: four-digit year and two-digit
fields separated by colons and one space, with calendar-style range checks;
`none` models the `ValueError` CPython raises on mismatch. -/
def strptimeYmdHms (s : String) : Option DateTime :=
  match splitOnChar ' ' s.data with
  | [datePart, timePart] =>
    match splitOnChar ':' datePart, splitOnChar ':' timePart with
    | [y, mo, d], [h, mi, se] =>
      if y.length = 4 ∧ mo.length = 2 ∧ d.length = 2 ∧
         h.length = 2 ∧ mi.length = 2 ∧ se.length = 2 then
        match parseDigits y, parseDigits mo, parseDigits d,
              parseDigits h, parseDigits mi, parseDigits se with
        | some yv, some mov, some dv, some hv, some miv, some sev =>
          if 1 ≤ yv ∧ 1 ≤ mov ∧ mov ≤ 12 ∧ 1 ≤ dv ∧ dv ≤ 31 ∧
             hv ≤ 23 ∧ miv ≤ 59 ∧ sev ≤ 59 then
            some ⟨yv, mov, dv, hv, miv, sev⟩
          else none
        | _, _, _, _, _, _ => none
      else none
    | _, _ => none
  | _ => none

/-- Association-list lookup, as `exif[306]` indexes the tag dictionary;
`none` is the `KeyError` case. -/
def exifLookup (tag : Nat) (exif : List (Nat × String)) : Option String :=
  match exif with
  | [] => none
  | (k, v) :: rest => if k = tag then some v else exifLookup tag rest

/-- `_extract_date(image_path)`: open the image, read EXIF tag 306 and
parse it with `'%Y:%m:%d %H:%M:%S'`.  Only `KeyError` (missing tag) is
caught and mapped to `ERROR_DATE`; a failed open raises `DecodeError` and
an unparsable value raises `ValueError` (`Except.error`). -/
def _extract_date (c : Codec) (file : FsFile) : Except PyError DateTime :=
  match c.decode file.bytes with
  | none => .error .DecodeError
  | some im =>
      match exifLookup 306 im.exif with
      | none => .ok ERROR_DATE
      | some v =>
          match strptimeYmdHms v with
          | none => .error .ValueError
          | some cdate => .ok cdate

/-- Zero-padding to two digits, as `datetime.__str__` renders fields. -/
def pad2 (n : Nat) : String :=
  if n < 10 then "0" ++ toString n else toString n

/-- Zero-padding to four digits, as `datetime.__str__` renders the year. -/
def pad4 (n : Nat) : String :=
  if n < 10 then "000" ++ toString n
  else if n < 100 then "00" ++ toString n
  else if n < 1000 then "0" ++ toString n
  else toString n

/-- `str(cdate)` for a whole-second datetime:
`YYYY-MM-DD HH:MM:SS`. -/
def dtToString (d : DateTime) : String :=
  pad4 d.year ++ "-" ++ pad2 d.month ++ "-" ++ pad2 d.day ++ " " ++
  pad2 d.hour ++ ":" ++ pad2 d.minute ++ ":" ++ pad2 d.second

/-- `process_file(file_path)`: checksum, then date, then the formatted
result line `f"{file_path.name} -- {cdate} -- {hash_str}"`.  Either
exception propagates. -/
def process_file (c : Codec) (file : FsFile) : Except PyError String :=
  match _calc_checksum c file 8192 with
  | .error e => .error e
  | .ok hash_str =>
      match _extract_date c file with
      | .error e => .error e
      | .ok cdate =>
          .ok (file.name ++ " -- " ++ dtToString cdate ++ " -- " ++ hash_str)

/-- What the `src` argument resolves to on the filesystem: a regular file,
a directory (with the `*.jpg` files discovery finds in it), or nothing. -/
inductive PathTarget where
  | file : FsFile → PathTarget
  | dir : List FsFile → PathTarget
  | missing : PathTarget

/-- How a `cli` run can abort: `click.exceptions.BadParameter` for a
nonexistent path, or an uncaught per-file exception escaping the
synchronous single-file branch. -/
inductive CliError where
  | BadParameter : String → CliError
  | Uncaught : PyError → CliError
deriving DecidableEq

/-- The stream of result lines a batch run prints.  `apply_async` fires the
`callback` (which prints) only when `process_file` returns; a raised
exception is stored in the unset-`error_callback` result object, so a
failed unit prints nothing.  `completionOrder` is the nondeterministic
order in which units finish; the pool's join waits for all of them. -/
def batchOutputs (c : Codec) (completionOrder : List FsFile) : List String :=
  completionOrder.filterMap (fun f => (process_file c f).toOption)

/-- `cli(src, dest, recurse)` observed as the list of lines printed to
stdout.  A directory prints `COUNT: n` and then the batch's completion
stream; a regular file is processed synchronously in the calling process;
a missing path raises `BadParameter`.  `completionOrder` resolves the
worker pool's nondeterminism and is quantified in the theorems (constrained
to permutations of the discovered file list). -/
def cli (c : Codec) (src : String) (target : PathTarget)
    (completionOrder : List FsFile) : Except CliError (List String) :=
  match target with
  | .missing => .error (.BadParameter src)
  | .dir files =>
      .ok (("COUNT: " ++ toString files.length) :: batchOutputs c completionOrder)
  | .file f =>
      match process_file c f with
      | .ok line => .ok [line]
      | .error e => .error (.Uncaught e)

/-- The option/argument names the `click` command accepts: the `src`
argument and the `--dest` and `--recurse` (with `--no-recurse`) options.
No pool-size parameter exists anywhere in the interface. -/
def cliAcceptedParams : List String := ["src", "dest", "recurse"]

/-- `multiprocessing.Pool()` is constructed with no `processes` argument,
so the pool size is the documented default: `os.cpu_count()`. -/
def poolSize (cpuCount : Nat) : Nat := cpuCount

/-! ### Supporting lemmas -/

theorem joinChunks_cons_aux (cs : List (List Nat)) :
    ∀ acc : List Nat,
      cs.foldl (fun a c => a ++ c) acc = acc ++ cs.foldl (fun a c => a ++ c) [] := by
  induction cs with
  | nil => intro acc; simp
  | cons c rest ih =>
      intro acc
      simp only [List.foldl_cons, List.nil_append]
      rw [ih (acc ++ c), ih c, List.append_assoc]

theorem joinChunks_cons (c : List Nat) (cs : List (List Nat)) :
    joinChunks (c :: cs) = c ++ joinChunks cs := by
  rw [joinChunks, joinChunks, List.foldl_cons, List.nil_append,
    joinChunks_cons_aux]

theorem joinChunks_readChunksAux (block_size : Nat) (hbs : 0 < block_size) :
    ∀ (fuel : Nat) (data : List Nat), data.length ≤ fuel →
      joinChunks (readChunksAux fuel block_size data) = data := by
  intro fuel
  induction fuel with
  | zero =>
      intro data hlen
      have hdata : data = [] := List.length_eq_zero.mp (Nat.le_zero.mp hlen)
      rw [hdata]
      rfl
  | succ n ih =>
      intro data hlen
      rw [readChunksAux]
      by_cases h : data = [] ∨ block_size = 0
      · rw [if_pos h]
        rcases h with h | h
        · rw [h]; rfl
        · omega
      · rw [if_neg h]
        push_neg at h
        have hpos : 0 < data.length := List.length_pos.mpr h.1
        have hdrop : (data.drop block_size).length ≤ n := by
          simp only [List.length_drop]
          omega
        rw [joinChunks_cons, ih _ hdrop, List.take_append_drop]

/-- With a positive block size, reading a buffer chunk by chunk and
concatenating the chunks recovers the buffer. -/
theorem joinChunks_readChunks (block_size : Nat) (hbs : 0 < block_size)
    (data : List Nat) : joinChunks (readChunks block_size data) = data :=
  joinChunks_readChunksAux block_size hbs data.length data (Nat.le_refl _)

theorem bytesToHex_length (l : List Nat) :
    (bytesToHex l).length = 2 * l.length := by
  induction l with
  | nil => rfl
  | cons b rest ih =>
      rw [bytesToHex]
      simp only [List.length_cons, ih]
      omega

theorem sha1Digest_length (msg : List Nat) : (sha1Digest msg).length = 20 := by
  rw [sha1Digest]
  simp [wordToBytes]

theorem hexChar_mem (n : Nat) : hexChar n ∈ hexDigits := by
  by_cases h : n < 16
  · interval_cases n <;> decide
  · rw [hexChar, List.getD_eq_default]
    · decide
    · rw [hexDigits]
      simp only [List.length_cons, List.length_nil]
      omega

theorem bytesToHex_mem (l : List Nat) :
    ∀ ch ∈ bytesToHex l, ch ∈ hexDigits := by
  induction l with
  | nil => intro ch hch; cases hch
  | cons b rest ih =>
      intro ch hch
      rw [bytesToHex, List.mem_cons, List.mem_cons] at hch
      rcases hch with h | h | h
      · rw [h]; exact hexChar_mem _
      · rw [h]; exact hexChar_mem _
      · exact ih ch h

theorem sha1Hex_length (msg : List Nat) : (sha1Hex msg).length = 40 := by
  show (bytesToHex (sha1Digest msg)).length = 40
  rw [bytesToHex_length, sha1Digest_length]

theorem sha1Hex_mem (msg : List Nat) :
    ∀ ch ∈ (sha1Hex msg).data, ch ∈ hexDigits := by
  intro ch hch
  exact bytesToHex_mem _ ch hch

/-! ### Concrete codec and files for witnesses and counterexamples -/

/-- A concrete codec instance: bytes `[]` are undecodable; byte tags `[1]`,
`[2]`, `[3]` decode to the same pixel payload and format but different EXIF
dictionaries (no date tag, an unparsable date tag, a well-formed date tag);
the encoder writes the format name's code points followed by the pixels. -/
def demoCodec : Codec where
  decode bs :=
    match bs with
    | [] => none
    | [1] => some ⟨[10, 20, 30], "JPEG", []⟩
    | [2] => some ⟨[10, 20, 30], "JPEG", [(306, "garbage")]⟩
    | _ => some ⟨[10, 20, 30], "JPEG", [(306, "2020:01:01 10:00:00")]⟩
  encode px fmt := fmt.data.map Char.toNat ++ px

/-- A decodable file carrying no EXIF date tag. -/
def fileNoTag : FsFile := ⟨"a.jpg", [1], 100⟩

/-- A decodable file whose EXIF tag 306 holds an unparsable value. -/
def fileBadTag : FsFile := ⟨"b.jpg", [2], 200⟩

/-- A decodable file with a well-formed EXIF tag 306. -/
def fileGood : FsFile := ⟨"c.jpg", [3], 300⟩

/-- A file PIL cannot decode. -/
def fileCorrupt : FsFile := ⟨"d.jpg", [], 400⟩

/-- The line a successful unit of work prints (defaulting to `""` for a
failed one); used to state batch-output theorems. -/
def resultLineD (c : Codec) (f : FsFile) : String :=
  ((process_file c f).toOption).getD ""

theorem calc_checksum_ok_shape (c : Codec) (f : FsFile) (bs : Nat)
    (s : String) (h : _calc_checksum c f bs = .ok s) :
    ∃ msg, s = sha1Hex msg := by
  simp only [_calc_checksum] at h
  cases hdec : c.decode f.bytes with
  | none => rw [hdec] at h; cases h
  | some im =>
      rw [hdec] at h
      exact ⟨_, (Except.ok.inj h).symm⟩

theorem batchOutputs_eq_map (c : Codec) :
    ∀ l : List FsFile, (∀ f ∈ l, (process_file c f).toOption.isSome) →
      batchOutputs c l = l.map (resultLineD c) := by
  intro l
  induction l with
  | nil => intro _; rfl
  | cons a rest ih =>
      intro hok
      have ha := hok a (List.mem_cons_self a rest)
      obtain ⟨line, hline⟩ := Option.isSome_iff_exists.mp ha
      have hrest := ih (fun f hf => hok f (List.mem_cons_of_mem a hf))
      simp only [batchOutputs, List.filterMap_cons, hline, List.map_cons]
      simp only [batchOutputs] at hrest
      rw [hrest, resultLineD, hline]
      rfl

/-! ### Claim theorems -/

/-- C1: two files that decode to bit-identical pixel payloads carrying the
same format identifier get identical checksums from `_calc_checksum`; the
digest never depends on the EXIF dictionary, the file name, or the
filesystem timestamp, since only the re-encoded pixel payload is hashed. -/
theorem checksum_depends_only_on_pixels_and_format
    (c : Codec) (f1 f2 : FsFile) (im1 im2 : Image) (block_size : Nat)
    (h1 : c.decode f1.bytes = some im1) (h2 : c.decode f2.bytes = some im2)
    (hpix : im1.pixels = im2.pixels) (hfmt : im1.format = im2.format) :
    _calc_checksum c f1 block_size = _calc_checksum c f2 block_size := by
  simp only [_calc_checksum, h1, h2, hpix, hfmt]

theorem checksum_depends_only_witness :
    demoCodec.decode fileNoTag.bytes = some ⟨[10, 20, 30], "JPEG", []⟩ ∧
    demoCodec.decode fileGood.bytes =
      some ⟨[10, 20, 30], "JPEG", [(306, "2020:01:01 10:00:00")]⟩ ∧
    _calc_checksum demoCodec fileNoTag 8192 =
      _calc_checksum demoCodec fileGood 8192 :=
  ⟨rfl, rfl,
    checksum_depends_only_on_pixels_and_format demoCodec fileNoTag fileGood
      ⟨[10, 20, 30], "JPEG", []⟩
      ⟨[10, 20, 30], "JPEG", [(306, "2020:01:01 10:00:00")]⟩
      8192 rfl rfl rfl rfl⟩

/-- C5 counterexample: at block size 0 the chunk loop reads nothing, so the
digest differs from the digest at the default block size on the same file —
chunk-size invariance does not hold at every chunk size. -/
theorem chunk_size_zero_changes_digest :
    _calc_checksum demoCodec fileGood 0 ≠ _calc_checksum demoCodec fileGood 8192 := by
  decide

/-- C5 (amended): for every file and every pair of positive block sizes,
`_calc_checksum` returns the same digest: chunked incremental hashing is
invariant under the (nonzero) chunk size. -/
theorem checksum_chunk_size_invariant (c : Codec) (f : FsFile)
    (bs1 bs2 : Nat) (h1 : 0 < bs1) (h2 : 0 < bs2) :
    _calc_checksum c f bs1 = _calc_checksum c f bs2 := by
  simp only [_calc_checksum, joinChunks_readChunks bs1 h1,
    joinChunks_readChunks bs2 h2]

theorem checksum_chunk_size_invariant_witness :
    0 < 1 ∧ 0 < 3 ∧
    _calc_checksum demoCodec fileGood 1 = _calc_checksum demoCodec fileGood 3 :=
  ⟨Nat.one_pos, by omega,
    checksum_chunk_size_invariant demoCodec fileGood 1 3 Nat.one_pos (by omega)⟩

/-- C10: with `block_size = 0` the first `read` returns the empty bytes
object, the loop body never runs, and `_calc_checksum` returns the SHA-1
digest of the empty byte string whatever the decoded image contains. -/
theorem zero_block_size_hashes_nothing (c : Codec) (f : FsFile) (im : Image)
    (hdec : c.decode f.bytes = some im) :
    _calc_checksum c f 0 = .ok (sha1Hex []) := by
  simp only [_calc_checksum, hdec]
  cases hlen : (c.encode im.pixels im.format).length with
  | zero =>
      have : c.encode im.pixels im.format = [] := List.length_eq_zero.mp hlen
      rw [readChunks, hlen, this]
      rfl
  | succ n =>
      rw [readChunks, hlen, readChunksAux, if_pos (Or.inr rfl)]
      rfl

theorem zero_block_size_hashes_nothing_witness :
    demoCodec.decode fileGood.bytes =
      some ⟨[10, 20, 30], "JPEG", [(306, "2020:01:01 10:00:00")]⟩ ∧
    _calc_checksum demoCodec fileGood 0 = .ok (sha1Hex []) :=
  ⟨rfl,
    zero_block_size_hashes_nothing demoCodec fileGood
      ⟨[10, 20, 30], "JPEG", [(306, "2020:01:01 10:00:00")]⟩ rfl⟩

/-- C3 counterexample: on a decodable file whose tag 306 holds the
unparsable value `"garbage"`, `_extract_date` raises `ValueError`
(`strptime` fails and only `KeyError` is caught) instead of returning the
sentinel — so it is not true that it never raises. -/
theorem extract_date_raises_on_unparsable_tag :
    _extract_date demoCodec fileBadTag = .error .ValueError := by rfl

/-- C3 (amended): on a decodable file, `_extract_date` returns the
sentinel `UNKNOWN_DATE` exactly when tag 306 is missing from the tag
dictionary; when the tag is present but its value fails to parse with
`YYYY:MM:DD HH:MM:SS`, the `ValueError` propagates uncaught (and a file
that cannot be decoded raises at `open`). -/
theorem extract_date_sentinel_or_raise (c : Codec) (f : FsFile) (im : Image)
    (hdec : c.decode f.bytes = some im) :
    (exifLookup 306 im.exif = none → _extract_date c f = .ok ERROR_DATE) ∧
    (∀ v, exifLookup 306 im.exif = some v → strptimeYmdHms v = none →
      _extract_date c f = .error .ValueError) := by
  constructor
  · intro hnone
    simp only [_extract_date, hdec, hnone]
  · intro v hv hparse
    simp only [_extract_date, hdec, hv, hparse]

theorem extract_date_sentinel_or_raise_witness :
    demoCodec.decode fileBadTag.bytes =
      some ⟨[10, 20, 30], "JPEG", [(306, "garbage")]⟩ ∧
    ((exifLookup 306 [(306, "garbage")] = none →
        _extract_date demoCodec fileBadTag = .ok ERROR_DATE) ∧
     (∀ v, exifLookup 306 [(306, "garbage")] = some v →
        strptimeYmdHms v = none →
        _extract_date demoCodec fileBadTag = .error .ValueError)) :=
  ⟨rfl,
    extract_date_sentinel_or_raise demoCodec fileBadTag
      ⟨[10, 20, 30], "JPEG", [(306, "garbage")]⟩ rfl⟩

/-- C6: a decodable file whose tag dictionary has no entry for tag 306
makes `_extract_date` return exactly the sentinel — year 1900, January 1,
midnight — and no exception (`Except.ok`). -/
theorem missing_tag_yields_sentinel (c : Codec) (f : FsFile) (im : Image)
    (hdec : c.decode f.bytes = some im)
    (htag : exifLookup 306 im.exif = none) :
    _extract_date c f = .ok ERROR_DATE ∧
    ERROR_DATE = ⟨1900, 1, 1, 0, 0, 0⟩ := by
  refine ⟨?_, rfl⟩
  simp only [_extract_date, hdec, htag]

theorem missing_tag_yields_sentinel_witness :
    demoCodec.decode fileNoTag.bytes = some ⟨[10, 20, 30], "JPEG", []⟩ ∧
    exifLookup 306 ([] : List (Nat × String)) = none ∧
    (_extract_date demoCodec fileNoTag = .ok ERROR_DATE ∧
     ERROR_DATE = ⟨1900, 1, 1, 0, 0, 0⟩) :=
  ⟨rfl, rfl,
    missing_tag_yields_sentinel demoCodec fileNoTag
      ⟨[10, 20, 30], "JPEG", []⟩ rfl rfl⟩

/-- C8: every line emitted for a successfully processed file is the file's
display name, a rendered timestamp, and the digest, separated by
`" -- "`, and the digest is a 40-character string of lowercase hexadecimal
digit characters (a 160-bit SHA-1 digest). -/
theorem result_line_format (c : Codec) (f : FsFile) (line : String)
    (h : process_file c f = .ok line) :
    ∃ (d : DateTime) (hex : String),
      line = f.name ++ " -- " ++ dtToString d ++ " -- " ++ hex ∧
      hex.length = 40 ∧ ∀ ch ∈ hex.data, ch ∈ hexDigits := by
  simp only [process_file] at h
  cases hcs : _calc_checksum c f 8192 with
  | error e => rw [hcs] at h; cases h
  | ok hash_str =>
      rw [hcs] at h
      cases hed : _extract_date c f with
      | error e => rw [hed] at h; cases h
      | ok cdate =>
          rw [hed] at h
          obtain ⟨msg, hmsg⟩ := calc_checksum_ok_shape c f 8192 hash_str hcs
          refine ⟨cdate, hash_str, (Except.ok.inj h).symm, ?_, ?_⟩
          · rw [hmsg]; exact sha1Hex_length msg
          · rw [hmsg]; exact sha1Hex_mem msg

theorem result_line_format_witness :
    process_file demoCodec fileGood = .ok (resultLineD demoCodec fileGood) ∧
    ∃ (d : DateTime) (hex : String),
      resultLineD demoCodec fileGood =
        fileGood.name ++ " -- " ++ dtToString d ++ " -- " ++ hex ∧
      hex.length = 40 ∧ ∀ ch ∈ hex.data, ch ∈ hexDigits :=
  ⟨rfl, result_line_format demoCodec fileGood (resultLineD demoCodec fileGood) rfl⟩

/-- C4 counterexample: a two-file batch in which one file fails to decode
produces only one result in the output stream, not two — the failed unit's
entry is omitted, so the claim does not hold for every input set. -/
theorem batch_not_complete_on_failure :
    ([fileNoTag, fileCorrupt] : List FsFile).length = 2 ∧
    (batchOutputs demoCodec [fileNoTag, fileCorrupt]).length = 1 := by
  constructor
  · rfl
  · rfl

/-- C4 (amended): for an input set in which every unit of work succeeds,
the batch output stream contains exactly one result per input path — as a
multiset it equals the per-file result lines, and in particular has length
N — regardless of the order in which units complete.  (The worker pool's
size never appears: the code creates `multiprocessing.Pool()` with its
default size, and pool size influences only the completion order, which is
quantified here.) -/
theorem batch_outputs_complete_when_all_ok (c : Codec)
    (files order : List FsFile) (hperm : order.Perm files)
    (hok : ∀ f ∈ files, (process_file c f).toOption.isSome) :
    (batchOutputs c order).Perm (files.map (resultLineD c)) ∧
    (batchOutputs c order).length = files.length := by
  have hok' : ∀ f ∈ order, (process_file c f).toOption.isSome :=
    fun f hf => hok f (hperm.mem_iff.mp hf)
  rw [batchOutputs_eq_map c order hok']
  exact ⟨hperm.map _, by rw [List.length_map, hperm.length_eq]⟩

theorem batch_outputs_complete_witness :
    ([fileGood, fileNoTag] : List FsFile).Perm [fileNoTag, fileGood] ∧
    (∀ f ∈ ([fileNoTag, fileGood] : List FsFile),
      (process_file demoCodec f).toOption.isSome) ∧
    ((batchOutputs demoCodec [fileGood, fileNoTag]).Perm
        (([fileNoTag, fileGood] : List FsFile).map (resultLineD demoCodec)) ∧
     (batchOutputs demoCodec [fileGood, fileNoTag]).length =
        ([fileNoTag, fileGood] : List FsFile).length) :=
  by
    have hok : ∀ f ∈ ([fileNoTag, fileGood] : List FsFile),
        (process_file demoCodec f).toOption.isSome := by
      intro f hf
      rcases List.mem_cons.mp hf with h | h
      · rw [h]; rfl
      · rcases List.mem_cons.mp h with h2 | h2
        · rw [h2]; rfl
        · cases h2
    exact ⟨List.Perm.swap fileNoTag fileGood [], hok,
      batch_outputs_complete_when_all_ok demoCodec [fileNoTag, fileGood]
        [fileGood, fileNoTag] (List.Perm.swap fileNoTag fileGood []) hok⟩

/-- C2: at a concrete failing input the code drops the failed unit from
the output.  A directory batch over a decodable file and an undecodable
file prints the COUNT line and the decodable file's result line only: the
`apply_async` callback fires only on success and no `error_callback` is
registered, so the `DecodeError` unit leaves no line and no failure
notice, while the other unit still completes. -/
theorem failed_unit_prints_nothing :
    cli demoCodec "pics" (.dir [fileNoTag, fileCorrupt])
        [fileNoTag, fileCorrupt] =
      .ok ["COUNT: 2", resultLineD demoCodec fileNoTag] ∧
    process_file demoCodec fileCorrupt = .error .DecodeError := by
  constructor
  · rfl
  · rfl

/-- C9 counterexample: a top-level path that is a regular file but fails to
decode makes the synchronous branch raise the `DecodeError` instead of
printing a result line, so "prints exactly one result line" does not hold
for every existing regular file. -/
theorem single_file_decode_error_no_output :
    cli demoCodec "d.jpg" (.file fileCorrupt) [] =
      .error (.Uncaught .DecodeError) := by rfl

/-- C9 (amended): when the top-level path is a regular file whose
processing succeeds, the program processes it synchronously in the calling
process — no pool, no completion-order nondeterminism — and prints exactly
the one result line, with no preceding COUNT line; if processing raises,
the exception propagates and no result line is printed. -/
theorem single_file_synchronous_line (c : Codec) (src : String)
    (f : FsFile) (order : List FsFile) (line : String)
    (h : process_file c f = .ok line) :
    cli c src (.file f) order = .ok [line] := by
  simp only [cli, h]

theorem single_file_synchronous_line_witness :
    process_file demoCodec fileGood = .ok (resultLineD demoCodec fileGood) ∧
    cli demoCodec "c.jpg" (.file fileGood) [] =
      .ok [resultLineD demoCodec fileGood] :=
  ⟨rfl,
    single_file_synchronous_line demoCodec "c.jpg" fileGood []
      (resultLineD demoCodec fileGood) rfl⟩

/-- C7 counterexample: the command-line interface — the only caller-facing
configuration surface — has no pool-size parameter, and
`multiprocessing.Pool()` is invoked with no `processes` argument, so no
caller-supplied pool size is accepted anywhere. -/
theorem no_pool_size_parameter : "pool_size" ∉ cliAcceptedParams := by
  decide

/-- C7 (amended): the orchestrator accepts no caller-supplied pool size;
the pool is always created with `multiprocessing`'s documented default,
the number of available processing units on the host. -/
theorem pool_size_is_cpu_default (cpuCount : Nat) :
    poolSize cpuCount = cpuCount ∧ "pool_size" ∉ cliAcceptedParams :=
  ⟨rfl, by decide⟩
